import Mathlib

/-!
Shallow embedding of the Music-Theory-Scale-Drop engine
(src/scale.py, src/useful.py, src/main.py, src/settings.py).

Python strings are modelled as lists of characters (`PyStr`); glyph strings
produced for the game font are modelled as lists of Unicode code points
(`List Int`), which keeps Python's `chr` faithful (including its
`ValueError` outside `[0, 0x10FFFF]`).  Fallible Python code (raised
exceptions) is modelled with `Except String`, the message naming the
exception that the source raises.
-/

-- Python strings as lists of characters.
abbrev PyStr := List Char

-- Exception tags, mirroring the exceptions raised in the source.
def errIndexOutOfRange : String := "IndexError: string index out of range"

def errInvalidNoteLetter : String := "InvalidNoteLetterError"

def errInvalidOctave : String := "InvalidOctaveError"

def errBadSizedScaleJump : String := "BadSizedScaleJumpError"

def errInvalidScaleSize : String := "InvalidScaleSizeError"

def errNoteNotEffected : String := "KeyError: NoteNotEffectedByKeySignatureError"

def errEmptyChoice : String := "IndexError: Cannot choose from an empty sequence"

def errKeyError : String := "KeyError"

def errChrValue : String := "ValueError: chr() arg not in range(0x110000)"

-- scale.py module constants.
def SHARP : Char := '#'

def FLAT : Char := 'b'

def ORDER_OF_SHARPS : PyStr := ['F', 'C', 'G', 'D', 'A', 'E', 'B']

def LETTERS_PER_OCTAVE : Nat := ORDER_OF_SHARPS.length

def STAFF_LINES : Nat := 5

def STAFF_SPACES : Nat := 4

def LEDGER_LINES : Nat := 4

def TOTAL_NOTES : Nat := STAFF_LINES + STAFF_SPACES + 2 * LEDGER_LINES

def NOTES_START : Int := 0xE000

def FLATS_START : Int := 0xE020

def NATURALS_START : Int := 0xE040

def SHARPS_START : Int := 0xE060

-- useful.py: pm_bool(b) = b * 2 - 1.
def pm_bool (b : Bool) : Int := (if b then (1 : Int) else 0) * 2 - 1

-- useful.py: int_from_pattern, the H/W/3 pattern-character decoding.
def int_from_pattern (pattern_char : Char) : Int :=
  if pattern_char = 'H' then 1
  else if pattern_char = 'W' then 2
  else if pattern_char = '3' then 3
  else 0

-- useful.py: ensure_octave(pattern) = (sum(pattern) == 12).
def ensure_octave (pattern : List Int) : Bool := pattern.sum == 12

-- useful.py: get_next_letter, cyclic successor in the musical alphabet.
-- Python's nonnegative % is Int.emod with a positive modulus.
def get_next_letter (letter : Char) : Char :=
  let num := ((letter.toNat : Int) - 65 + 1).emod 7
  Char.ofNat (num + 65).toNat

-- useful.py: cmp(a, b) = (a > b) - (a < b), at type int.
def cmpInt (a b : Int) : Int :=
  (if a > b then (1 : Int) else 0) - (if a < b then (1 : Int) else 0)

-- Python string comparison: lexicographic by code point, a strict prefix
-- is smaller.
def strLt : PyStr → PyStr → Bool
  | [], [] => false
  | [], _ :: _ => true
  | _ :: _, [] => false
  | a :: as, b :: bs =>
    if a.toNat < b.toNat then true
    else if b.toNat < a.toNat then false
    else strLt as bs

-- useful.py: cmp(a, b) at type str.
def cmpStr (a b : PyStr) : Int :=
  (if strLt b a then (1 : Int) else 0) - (if strLt a b then (1 : Int) else 0)

-- Python str(int): optional minus sign followed by decimal digits.
def intStr (n : Int) : PyStr :=
  if n < 0 then '-' :: Nat.toDigits 10 (-n).toNat
  else Nat.toDigits 10 n.toNat

-- Python chr(i): the code point itself, a ValueError outside the Unicode
-- range.  Glyph strings are lists of code points.
def pychr (n : Int) : Except String Int :=
  if 0 ≤ n ∧ n ≤ 1114111 then .ok n else .error errChrValue

-- The accidental-counting loop of Note.__init__ over note[1:-1].
def sfStep (acc : Int) (c : Char) : Int :=
  if c = SHARP then acc + 1 else if c = FLAT then acc - 1 else acc

def sfCount (l : PyStr) : Int := l.foldl sfStep 0

-- SHARP*n + FLAT*-n: Python string repetition with a negative count is
-- empty, so exactly one of the two blocks is nonempty.
def mkSharpFlat (n : Int) : PyStr :=
  List.replicate n.toNat SHARP ++ List.replicate (-n).toNat FLAT

-- scale.py: class Note.  letter is the first character of the input,
-- sharp_flat the normalised accidental string, octave the value of the
-- last character of the input (a single decimal digit).
structure Note where
  letter : Char
  sharp_flat : PyStr
  octave : Int
deriving DecidableEq

-- scale.py: class Clef (all_notes is defined further below).
structure Clef where
  name : String
  symbol : Char
  lowest_note : Note
  sharps_pattern : List Bool
  flats_pattern : List Bool
deriving DecidableEq

-- scale.py: class KeySignature.
structure KeySignature where
  sharps_flats : Int
deriving DecidableEq

/-- Note.__init__: letter from note[0] (must be A..G, ord 65..71), octave
from the last character (must be a decimal digit, ord 48..57), accidental
count from the '#'/'b' characters among note[1:-1] (anything else there is
skipped by the loop).  An empty string hits note[0] and is an IndexError. -/
def Note.ofStr (note : PyStr) : Except String Note :=
  match note with
  | [] => .error errIndexOutOfRange
  | c0 :: rest =>
    if 65 ≤ c0.toNat ∧ c0.toNat ≤ 71 then
      let lastc := (c0 :: rest).getLastD c0
      if 48 ≤ lastc.toNat ∧ lastc.toNat ≤ 57 then
        .ok ⟨c0, mkSharpFlat (sfCount rest.dropLast), (lastc.toNat : Int) - 48⟩
      else .error errInvalidOctave
    else .error errInvalidNoteLetter

-- Note.__str__: f-string letter, accidentals, space, octave.
def Note.strForm (self : Note) : PyStr :=
  self.letter :: self.sharp_flat ++ [' '] ++ intStr self.octave

-- Note.font_offset_number: clef-relative staff index.  Python's
-- (self.letter < 'C') is the code-point comparison, used as 0/1.
def Note.font_offset_number (self : Note) (clef : Clef) : Int :=
  let octave_diff := self.octave - clef.lowest_note.octave
  let octave_diff2 := octave_diff +
    ((if self.letter.toNat < 67 then (1 : Int) else 0) -
     (if clef.lowest_note.letter.toNat < 67 then (1 : Int) else 0))
  let note_diff :=
    (self.letter.toNat : Int) - (clef.lowest_note.letter.toNat : Int) + 1
  octave_diff2 * (LETTERS_PER_OCTAVE : Int) + note_diff

-- ACCIDENTALS_START dict lookup; a KeyError off '#'/'b'.
def ACCIDENTALS_START (c : Char) : Except String Int :=
  if c = SHARP then .ok SHARPS_START
  else if c = FLAT then .ok FLATS_START
  else .error errKeyError

-- Note.accidentals_symbols: glyphs (code points) for the accidentals.
def Note.accidentals_symbols (self : Note) (clef : Clef) (with_natural : Bool) :
    Except String (List Int) :=
  match self.sharp_flat with
  | [] =>
    if with_natural = false then .ok []
    else (pychr (NATURALS_START + self.font_offset_number clef)).map (fun c => [c])
  | a :: rest =>
    (ACCIDENTALS_START a).bind (fun astart =>
      (pychr (astart + self.font_offset_number clef)).map (fun char_ind =>
        (a :: rest).map (fun c => if c = a then char_ind else (c.toNat : Int))))

-- KeySignature.__contains__: Python slicing of ORDER_OF_SHARPS, then the
-- single-character substring test.
def KeySignature.containsNote (self : KeySignature) (note : Note) : Bool :=
  if self.sharps_flats < 0 then
    (ORDER_OF_SHARPS.drop (7 + self.sharps_flats).toNat).contains note.letter
  else
    (ORDER_OF_SHARPS.take self.sharps_flats.toNat).contains note.letter

-- KeySignature.__rxor__: KeyError when the note is not covered, else
-- whether the accidental type differs from the key-signature type.
def KeySignature.rxorTest (self : KeySignature) (note : Note) : Except String Bool :=
  if self.containsNote note = false then .error errNoteNotEffected
  else .ok (decide (-(cmpStr (note.sharp_flat ++ ['A']) (['A'])) ≠ cmpInt self.sharps_flats 0))

/-- Note.string_form.  With a clef: the accidental glyphs (natural ones
only when the note is covered by, and mismatches, the key signature)
followed by the note-head glyph.  Without a clef: the plain text form,
ret[:-2] stripping the space and the octave digit unless octave is set. -/
def Note.string_form (self : Note) (clef : Option Clef)
    (key_signature : KeySignature) (octave : Bool) : Except String (List Int) :=
  match clef with
  | some c =>
    (if key_signature.containsNote self then
        (key_signature.rxorTest self).bind (fun mismatch =>
          if mismatch then self.accidentals_symbols c true else .ok [])
      else self.accidentals_symbols c false).bind (fun accidental =>
      (pychr (NOTES_START + self.font_offset_number c)).map (fun note_on_staff =>
        accidental ++ [note_on_staff]))
  | none =>
    let ret := self.strForm
    if octave = false then
      .ok ((ret.take (ret.length - 2)).map (fun ch => (ch.toNat : Int)))
    else .ok (ret.map (fun ch => (ch.toNat : Int)))

-- Note.get_sharp_flat: signed accidental count.
def Note.get_sharp_flat (self : Note) : Int :=
  match self.sharp_flat with
  | [] => 0
  | a :: rest => ((a :: rest).length : Int) * pm_bool (a = SHARP)

/-- Note.up_by: rejects half_steps outside 1..3, advances the letter (and
possibly the octave) only for scale_length 7, rebuilds the compact string
and re-parses it through the Note constructor. -/
def Note.up_by (self : Note) (half_steps : Int) (scale_length : Int) :
    Except String Note :=
  if 1 ≤ half_steps ∧ half_steps ≤ 3 then
    let temp_letter := self.letter
    let temp_sharp_flat_num := self.get_sharp_flat + half_steps
    let temp_octave := self.octave
    -- match scale_length: the cases 5, 6, 8, 12 and the default all pass;
    -- only 7 moves the letter.
    let res :=
      if scale_length = 5 then (temp_letter, temp_sharp_flat_num, temp_octave)
      else if scale_length = 6 then (temp_letter, temp_sharp_flat_num, temp_octave)
      else if scale_length = 7 then
        (get_next_letter self.letter,
         temp_sharp_flat_num - (if self.letter = 'B' ∨ self.letter = 'E' then 1 else 2),
         temp_octave + (if self.letter = 'B' then (1 : Int) else 0))
      else if scale_length = 8 then (temp_letter, temp_sharp_flat_num, temp_octave)
      else if scale_length = 12 then (temp_letter, temp_sharp_flat_num, temp_octave)
      else (temp_letter, temp_sharp_flat_num, temp_octave)
    Note.ofStr (res.1 :: mkSharpFlat res.2.1 ++ intStr res.2.2)
  else .error errBadSizedScaleJump

-- The representation invariant of constructor-produced Notes: the letter
-- is A..G, the octave a single decimal digit, the accidental string a
-- normalised run of sharps or of flats.
def LETTERS : PyStr := ['A', 'B', 'C', 'D', 'E', 'F', 'G']

def Note.Valid (n : Note) : Prop :=
  n.letter ∈ LETTERS ∧ (∃ k : Int, n.sharp_flat = mkSharpFlat k) ∧
    0 ≤ n.octave ∧ n.octave ≤ 9

-- scale.py: class ScaleInfo and its __post_init__ octave expansion 0..8.
structure ScaleInfo where
  name : String
  pattern : PyStr
  possible_starts_octaveless : List PyStr
deriving DecidableEq

def ScaleInfo.possible_starts (self : ScaleInfo) : List PyStr :=
  (self.possible_starts_octaveless.map (fun possible_start =>
    (List.range 9).map (fun octave => possible_start ++ intStr (octave : Int)))).flatten

-- settings.py: the fields of Settings consumed by the engine.  The two
-- ledger fields are Nat because validate_ledger_lines clamps them into
-- [0, LEDGER_LINES] before they are ever used.
structure Settings where
  scale_types : List String
  clefs : List String
  max_sharps_key_signature : Int
  max_flats_key_signature : Int
  max_high_ledger_positions : Nat
  max_low_ledger_positions : Nat
deriving DecidableEq

structure World where
  settings : Settings
deriving DecidableEq

-- Clef.all_notes: the letter-by-letter walk of
-- TOTAL_NOTES - LETTERS_PER_OCTAVE = 10 staff positions, three spellings
-- per position, octave bumping whenever the next letter is C.
def allNotesWalk : Nat → Char → Int → List PyStr
  | 0, _, _ => []
  | Nat.succ i, letter_now, octave_now =>
    let temp_notes := [[letter_now, FLAT], [letter_now], [letter_now, SHARP]]
    let temp_notes := temp_notes.map (fun note => note ++ intStr octave_now)
    let letter_next := get_next_letter letter_now
    let octave_next := if letter_next = 'C' then octave_now + 1 else octave_now
    temp_notes ++ allNotesWalk i letter_next octave_next

-- The Python slice all_notes[3*(LEDGER_LINES - low) : len - 3*(LEDGER_LINES - high)]
-- (set() only dedups; the walk's entries are pairwise distinct, so a list
-- keeps the same membership).
def Clef.all_notes (self : Clef) (world : World) : List PyStr :=
  let all_notes := allNotesWalk (TOTAL_NOTES - LETTERS_PER_OCTAVE)
    self.lowest_note.letter self.lowest_note.octave
  (all_notes.take
      (all_notes.length -
        3 * (LEDGER_LINES - world.settings.max_high_ledger_positions))).drop
    (3 * (LEDGER_LINES - world.settings.max_low_ledger_positions))

-- useful.py: choice(iterable) = random.choice(list(iterable)); the random
-- draw is modelled by an injected index, the empty case is random.choice's
-- IndexError.
def choice {α : Type} (iterable : List α) (pick : Nat) : Except String α :=
  match iterable with
  | [] => .error errEmptyChoice
  | x :: xs => .ok ((x :: xs).get ⟨pick % (xs.length + 1), Nat.mod_lt _ (Nat.succ_pos _)⟩)

-- Python dict[key] lookup with its KeyError.
def dictGet {α : Type} (d : List (String × α)) (key : String) : Except String α :=
  match d.lookup key with
  | some v => .ok v
  | none => .error errKeyError

-- scale.py: the CLEFS catalog.
def bassClef : Clef :=
  { name := "Bass", symbol := '\uE0A9',
    lowest_note := { letter := 'C', sharp_flat := [], octave := 2 },
    sharps_pattern := [false, true, false, false, true, false],
    flats_pattern := [false, true, false, true, false, true] }

def trebleClef : Clef :=
  { name := "Treble", symbol := '\uE0AE',
    lowest_note := { letter := 'A', sharp_flat := [], octave := 3 },
    sharps_pattern := [false, true, false, false, true, false],
    flats_pattern := [false, true, false, true, false, true] }

def baritoneClef : Clef :=
  { name := "Baritone", symbol := '\uE0AB',
    lowest_note := { letter := 'E', sharp_flat := [], octave := 2 },
    sharps_pattern := [true, false, true, false, false, true],
    flats_pattern := [true, false, true, false, true, false] }

def tenorClef : Clef :=
  { name := "Tenor", symbol := '\uE0AD',
    lowest_note := { letter := 'G', sharp_flat := [], octave := 2 },
    sharps_pattern := [true, false, true, false, true, false],
    flats_pattern := [false, true, false, true, false, true] }

def altoClef : Clef :=
  { name := "Alto", symbol := '\uE0AF',
    lowest_note := { letter := 'B', sharp_flat := [], octave := 2 },
    sharps_pattern := [false, true, false, false, true, false],
    flats_pattern := [false, true, false, true, false, true] }

def mezzoSopranoClef : Clef :=
  { name := "Mezzo-Soprano", symbol := '\uE0AA',
    lowest_note := { letter := 'D', sharp_flat := [], octave := 3 },
    sharps_pattern := [false, true, false, true, false, true],
    flats_pattern := [true, false, true, false, true, false] }

def sopranoClef : Clef :=
  { name := "Soprano", symbol := '\uE0AC',
    lowest_note := { letter := 'F', sharp_flat := [], octave := 3 },
    sharps_pattern := [true, false, true, false, true, false],
    flats_pattern := [true, false, true, false, true, false] }

def CLEFS : List (String × Clef) :=
  [("Bass", bassClef), ("Treble", trebleClef), ("Baritone", baritoneClef),
   ("Tenor", tenorClef), ("Alto", altoClef), ("Mezzo-Soprano", mezzoSopranoClef),
   ("Soprano", sopranoClef)]

-- scale.py: the SCALE_TYPE_INFO catalog, keyed by the selection key.
def SCALE_TYPE_INFO : List (String × ScaleInfo) :=
  [("q", { name := "Major", pattern := "WWHWWWH".toList,
           possible_starts_octaveless :=
             ["Cb".toList, "Gb".toList, "Db".toList, "Ab".toList, "Eb".toList,
              "Bb".toList, "F".toList, "C".toList, "G".toList, "D".toList,
              "A".toList, "E".toList, "B".toList, "F#".toList, "C#".toList] }),
   ("w", { name := "Natural Minor", pattern := "WHWWHWW".toList,
           possible_starts_octaveless :=
             ["Ab".toList, "Eb".toList, "Bb".toList, "F".toList, "C".toList,
              "G".toList, "D".toList, "A".toList, "E".toList, "B".toList,
              "F#".toList, "C#".toList, "G#".toList, "D#".toList, "A#".toList] }),
   ("e", { name := "Harmonic Minor", pattern := "WHWWH3H".toList,
           possible_starts_octaveless :=
             ["Ab".toList, "Eb".toList, "Bb".toList, "F".toList, "C".toList,
              "G".toList, "D".toList, "A".toList, "E".toList, "B".toList,
              "F#".toList, "C#".toList, "G#".toList, "D#".toList, "A#".toList] }),
   ("r", { name := "Melodic Minor", pattern := "WHWWWWH".toList,
           possible_starts_octaveless :=
             ["Ab".toList, "Eb".toList, "Bb".toList, "F".toList, "C".toList,
              "G".toList, "D".toList, "A".toList, "E".toList, "B".toList,
              "F#".toList, "C#".toList, "G#".toList, "D#".toList, "A#".toList] }),
   ("1", { name := "Ionian", pattern := "WWHWWWH".toList,
           possible_starts_octaveless :=
             ["Cb".toList, "Gb".toList, "Db".toList, "Ab".toList, "Eb".toList,
              "Bb".toList, "F".toList, "C".toList, "G".toList, "D".toList,
              "A".toList, "E".toList, "B".toList, "F#".toList, "C#".toList] }),
   ("2", { name := "Dorian", pattern := "WHWWWHW".toList,
           possible_starts_octaveless :=
             ["Db".toList, "Ab".toList, "Eb".toList, "Bb".toList, "F".toList,
              "C".toList, "G".toList, "D".toList, "A".toList, "E".toList,
              "B".toList, "F#".toList, "C#".toList, "G#".toList, "D#".toList] }),
   ("3", { name := "Phrygian", pattern := "HWWWHWW".toList,
           possible_starts_octaveless :=
             ["Eb".toList, "Bb".toList, "F".toList, "C".toList, "G".toList,
              "D".toList, "A".toList, "E".toList, "B".toList, "F#".toList,
              "C#".toList, "G#".toList, "D#".toList, "A#".toList, "E#".toList] }),
   ("4", { name := "Lydian", pattern := "WWWHWWH".toList,
           possible_starts_octaveless :=
             ["Fb".toList, "Cb".toList, "Gb".toList, "Db".toList, "Ab".toList,
              "Eb".toList, "Bb".toList, "F".toList, "C".toList, "G".toList,
              "D".toList, "A".toList, "E".toList, "B".toList, "F#".toList] }),
   ("5", { name := "Mixolydian", pattern := "WWHWWHW".toList,
           possible_starts_octaveless :=
             ["Gb".toList, "Db".toList, "Ab".toList, "Eb".toList, "Bb".toList,
              "F".toList, "C".toList, "G".toList, "D".toList, "A".toList,
              "E".toList, "B".toList, "F#".toList, "C#".toList, "G#".toList] }),
   ("6", { name := "Aeolian", pattern := "WHWWHWW".toList,
           possible_starts_octaveless :=
             ["Ab".toList, "Eb".toList, "Bb".toList, "F".toList, "C".toList,
              "G".toList, "D".toList, "A".toList, "E".toList, "B".toList,
              "F#".toList, "C#".toList, "G#".toList, "D#".toList, "A#".toList] }),
   ("7", { name := "Lochrian", pattern := "HWWHWWW".toList,
           possible_starts_octaveless :=
             ["Bb".toList, "F".toList, "C".toList, "G".toList, "D".toList,
              "A".toList, "E".toList, "B".toList, "F#".toList, "C#".toList,
              "G#".toList, "D#".toList, "A#".toList, "E#".toList, "B#".toList] })]

-- SCALE_TYPE_KEYS: name -> selection key.
def SCALE_TYPE_KEYS : List (String × String) :=
  SCALE_TYPE_INFO.map (fun p => (p.2.name, p.1))

-- scale.py: class Scale (the designer display objects are external).
structure Scale where
  pattern : List Int
  starts_on : Note
  clef : Clef
deriving DecidableEq

/-- Scale.__init__.  None arguments trigger the constrained random picks;
the random draws of useful.choice are modelled by the injected indices
pick1..pick3.  Mirrors the source order: scale type, clef, starting note,
pattern check, Note parse, clef lookup. -/
def scaleInit (world : World) (scale_typeO : Option ScaleInfo)
    (starts_onO : Option PyStr) (clefO : Option String)
    (pick1 pick2 pick3 : Nat) : Except String Scale :=
  let scale_typeE : Except String ScaleInfo :=
    match scale_typeO with
    | some st => .ok st
    | none =>
      let possible_scale_types := world.settings.scale_types.filter
        (fun n => (SCALE_TYPE_KEYS.lookup n).isSome)
      (choice possible_scale_types pick1).bind (fun chosen =>
        (dictGet SCALE_TYPE_KEYS chosen).bind (fun scale_name =>
          dictGet SCALE_TYPE_INFO scale_name))
  scale_typeE.bind (fun scale_type =>
    let pattern := scale_type.pattern
    let clefE : Except String String :=
      match clefO with
      | some c => .ok c
      | none =>
        let possible_clefs := world.settings.clefs.filter
          (fun n => (CLEFS.lookup n).isSome)
        choice possible_clefs pick2
    clefE.bind (fun clef =>
      let starts_onE : Except String PyStr :=
        match starts_onO with
        | some s => .ok s
        | none =>
          (dictGet CLEFS clef).bind (fun clefObj =>
            let possible_starts := scale_type.possible_starts.filter
              (fun s => (clefObj.all_notes world).contains s)
            choice possible_starts pick3)
      starts_onE.bind (fun starts_on =>
        let int_p := pattern.map int_from_pattern
        if ensure_octave int_p then
          (Note.ofStr starts_on).bind (fun starts =>
            (dictGet CLEFS clef).map (fun clefObj =>
              { pattern := int_p, starts_on := starts, clef := clefObj }))
        else .error errInvalidScaleSize)))

-- main.py void_keyPressed: the guessed pattern string is decoded with
-- int_from_pattern and compared against the scale's pattern.
def verify (sb_pattern : List Int) (guessed_pattern_str : PyStr) : Bool :=
  sb_pattern == guessed_pattern_str.map int_from_pattern

-- Sequential application of up_by along a pattern (Scale.__str__ and
-- Scale.__repr__ walk the scale this way).
def runPattern : Note → List Int → Int → Except String Note
  | n, [], _ => .ok n
  | n, s :: rest, len => (n.up_by s len).bind (fun m => runPattern m rest len)

-- Spec-side definitions (used to state the claims, independent of the
-- translated code above).

-- The musical-alphabet successor as the spec words it: the next letter in
-- A..G, cyclic, G wrapping to A.
def nextInAlphabet (c : Char) : Char :=
  LETTERS.getD ((LETTERS.indexOf c + 1) % 7) 'A'

-- The letter-octave pitch ordering of C6: octaves compared after
-- attributing letters below C to the previous printed octave, then
-- letters compared A..G.
def pitchKey (n : Note) : Int :=
  n.octave + (if n.letter.toNat < 67 then 1 else 0)

def pitchPrecedes (a b : Note) : Prop :=
  pitchKey a < pitchKey b ∨ (pitchKey a = pitchKey b ∧ a.letter.toNat < b.letter.toNat)

-- The closed-form description of the playable-note walk from the spec of
-- C5: position i holds the i-th letter after the clef's lowest note, its
-- octave raised once per crossing into C, spelled flat, natural, sharp.
def specLetterAt (c : Clef) (i : Nat) : Char :=
  get_next_letter^[i] c.lowest_note.letter

def specOctaveAt (c : Clef) (i : Nat) : Int :=
  c.lowest_note.octave +
    ((List.range i).filter (fun j => specLetterAt c (j + 1) = 'C')).length

def specSpellingsAt (c : Clef) (i : Nat) : List PyStr :=
  [specLetterAt c i :: FLAT :: intStr (specOctaveAt c i),
   specLetterAt c i :: intStr (specOctaveAt c i),
   specLetterAt c i :: SHARP :: intStr (specOctaveAt c i)]

def specWalk (c : Clef) : List PyStr :=
  ((List.range 10).map (specSpellingsAt c)).flatten

-- The ledger-line regions: the spellings of the 4 lowest and the 4
-- highest staff positions, 3 entries each.
def ledgerRegion (c : Clef) : List PyStr :=
  (specWalk c).take 12 ++ (specWalk c).drop 18

def clefList : List Clef := CLEFS.map (fun p => p.2)

-- The compact note-string form of the spec for C7: a letter A..G, zero or
-- more '#'/'b', a trailing decimal digit.
def isCompactNoteForm (s : PyStr) : Bool :=
  match s with
  | [] => false
  | c :: rest =>
    decide (65 ≤ c.toNat ∧ c.toNat ≤ 71) &&
    rest.dropLast.all (fun x => x = '#' || x = 'b') &&
    (let lastc := (c :: rest).getLastD c
     decide (48 ≤ lastc.toNat ∧ lastc.toNat ≤ 57))

-- Helper lemmas about the embedding.

theorem exbind_ok {α β : Type} (a : α) (f : α → Except String β) :
    (Except.ok a : Except String α).bind f = f a := rfl

theorem intStr_digit (o : Int) (h0 : 0 ≤ o) (h9 : o ≤ 9) :
    ∃ d : Char, intStr o = [d] ∧ 48 ≤ d.toNat ∧ d.toNat ≤ 57 ∧ (d.toNat : Int) - 48 = o := by
  interval_cases o
  · exact ⟨'0', by decide, by decide, by decide, by decide⟩
  · exact ⟨'1', by decide, by decide, by decide, by decide⟩
  · exact ⟨'2', by decide, by decide, by decide, by decide⟩
  · exact ⟨'3', by decide, by decide, by decide, by decide⟩
  · exact ⟨'4', by decide, by decide, by decide, by decide⟩
  · exact ⟨'5', by decide, by decide, by decide, by decide⟩
  · exact ⟨'6', by decide, by decide, by decide, by decide⟩
  · exact ⟨'7', by decide, by decide, by decide, by decide⟩
  · exact ⟨'8', by decide, by decide, by decide, by decide⟩
  · exact ⟨'9', by decide, by decide, by decide, by decide⟩

theorem foldl_replicate_sharp (n : Nat) (a : Int) :
    (List.replicate n SHARP).foldl sfStep a = a + n := by
  induction n generalizing a with
  | zero => simp
  | succ m ih =>
    rw [List.replicate_succ, List.foldl_cons, ih]
    simp [sfStep]
    omega

theorem foldl_replicate_flat (n : Nat) (a : Int) :
    (List.replicate n FLAT).foldl sfStep a = a - n := by
  induction n generalizing a with
  | zero => simp
  | succ m ih =>
    rw [List.replicate_succ, List.foldl_cons, ih]
    simp [sfStep, SHARP, FLAT]
    omega

theorem sfCount_mkSharpFlat (k : Int) : sfCount (mkSharpFlat k) = k := by
  unfold sfCount mkSharpFlat
  rcases le_or_lt 0 k with hk | hk
  · have h2 : (-k).toNat = 0 := by omega
    rw [h2, List.replicate_zero, List.append_nil, foldl_replicate_sharp]
    omega
  · have h1 : k.toNat = 0 := by omega
    rw [h1, List.replicate_zero, List.nil_append, foldl_replicate_flat]
    omega

theorem get_sharp_flat_mkSharpFlat (L : Char) (o k : Int) :
    Note.get_sharp_flat ⟨L, mkSharpFlat k, o⟩ = k := by
  unfold Note.get_sharp_flat mkSharpFlat
  rcases lt_trichotomy k 0 with hk | hk | hk
  · have h1 : k.toNat = 0 := by omega
    obtain ⟨m, hm⟩ : ∃ m : Nat, (-k).toNat = m + 1 := ⟨(-k).toNat - 1, by omega⟩
    rw [h1, hm]
    simp [List.replicate_succ, pm_bool, SHARP, FLAT]
    omega
  · subst hk
    simp
  · have h2 : (-k).toNat = 0 := by omega
    obtain ⟨m, hm⟩ : ∃ m : Nat, k.toNat = m + 1 := ⟨k.toNat - 1, by omega⟩
    rw [h2, hm]
    simp [List.replicate_succ, pm_bool, SHARP, FLAT]
    omega

theorem ofStr_cons (c0 : Char) (rest : PyStr) :
    Note.ofStr (c0 :: rest) =
      (if 65 ≤ c0.toNat ∧ c0.toNat ≤ 71 then
        if 48 ≤ ((c0 :: rest).getLastD c0).toNat ∧ ((c0 :: rest).getLastD c0).toNat ≤ 57 then
          Except.ok ⟨c0, mkSharpFlat (sfCount rest.dropLast),
            (((c0 :: rest).getLastD c0).toNat : Int) - 48⟩
        else Except.error errInvalidOctave
      else Except.error errInvalidNoteLetter) := rfl

theorem ofStr_build (L : Char) (k o : Int) (hL1 : 65 ≤ L.toNat) (hL2 : L.toNat ≤ 71)
    (h0 : 0 ≤ o) (h9 : o ≤ 9) :
    Note.ofStr (L :: mkSharpFlat k ++ intStr o) = .ok ⟨L, mkSharpFlat k, o⟩ := by
  obtain ⟨d, hd, hd1, hd2, hdv⟩ := intStr_digit o h0 h9
  rw [hd]
  have hlast : (L :: (mkSharpFlat k ++ [d])).getLastD L = d := by
    rw [show L :: (mkSharpFlat k ++ [d]) = (L :: mkSharpFlat k) ++ [d] from by simp]
    exact List.getLastD_concat _ _ _
  rw [show L :: mkSharpFlat k ++ [d] = L :: (mkSharpFlat k ++ [d]) from rfl, ofStr_cons]
  rw [if_pos ⟨hL1, hL2⟩, hlast, if_pos ⟨hd1, hd2⟩, List.dropLast_concat,
    sfCount_mkSharpFlat, hdv]

theorem up_by_seven (L : Char) (k o h : Int) (hL : L ∈ LETTERS)
    (h1 : 1 ≤ h) (h3 : h ≤ 3) (ho0 : 0 ≤ o)
    (ho9 : o + (if L = 'B' then (1 : Int) else 0) ≤ 9) :
    Note.up_by ⟨L, mkSharpFlat k, o⟩ h 7 =
      .ok ⟨get_next_letter L,
           mkSharpFlat (k + h - (if L = 'B' ∨ L = 'E' then (1 : Int) else 2)),
           o + (if L = 'B' then (1 : Int) else 0)⟩ := by
  have hnb1 : 65 ≤ (get_next_letter L).toNat := by
    have hL' : L ∈ ['A', 'B', 'C', 'D', 'E', 'F', 'G'] := by simpa [LETTERS] using hL
    fin_cases hL' <;> decide
  have hnb2 : (get_next_letter L).toNat ≤ 71 := by
    have hL' : L ∈ ['A', 'B', 'C', 'D', 'E', 'F', 'G'] := by simpa [LETTERS] using hL
    fin_cases hL' <;> decide
  have hbump0 : (0 : Int) ≤ (if L = 'B' then (1 : Int) else 0) := by
    split <;> norm_num
  unfold Note.up_by
  rw [if_pos ⟨h1, h3⟩]
  norm_num
  rw [get_sharp_flat_mkSharpFlat]
  exact ofStr_build _ _ _ hnb1 hnb2 (by omega) ho9

theorem stepA (k o h : Int) (h1 : 1 ≤ h) (h3 : h ≤ 3) (o0 : 0 ≤ o) (o9 : o ≤ 9) :
    Note.up_by ⟨'A', mkSharpFlat k, o⟩ h 7 = .ok ⟨'B', mkSharpFlat (k + h - 2), o⟩ := by
  have h' := up_by_seven 'A' k o h (by decide) h1 h3 o0 (by simpa using o9)
  rw [show get_next_letter 'A' = 'B' from by decide] at h'
  simpa using h'

theorem stepB (k o h : Int) (h1 : 1 ≤ h) (h3 : h ≤ 3) (o0 : 0 ≤ o) (o9 : o ≤ 8) :
    Note.up_by ⟨'B', mkSharpFlat k, o⟩ h 7 = .ok ⟨'C', mkSharpFlat (k + h - 1), o + 1⟩ := by
  have h' := up_by_seven 'B' k o h (by decide) h1 h3 o0 (by simpa using by omega)
  rw [show get_next_letter 'B' = 'C' from by decide] at h'
  simpa using h'

theorem stepC (k o h : Int) (h1 : 1 ≤ h) (h3 : h ≤ 3) (o0 : 0 ≤ o) (o9 : o ≤ 9) :
    Note.up_by ⟨'C', mkSharpFlat k, o⟩ h 7 = .ok ⟨'D', mkSharpFlat (k + h - 2), o⟩ := by
  have h' := up_by_seven 'C' k o h (by decide) h1 h3 o0 (by simpa using o9)
  rw [show get_next_letter 'C' = 'D' from by decide] at h'
  simpa using h'

theorem stepD (k o h : Int) (h1 : 1 ≤ h) (h3 : h ≤ 3) (o0 : 0 ≤ o) (o9 : o ≤ 9) :
    Note.up_by ⟨'D', mkSharpFlat k, o⟩ h 7 = .ok ⟨'E', mkSharpFlat (k + h - 2), o⟩ := by
  have h' := up_by_seven 'D' k o h (by decide) h1 h3 o0 (by simpa using o9)
  rw [show get_next_letter 'D' = 'E' from by decide] at h'
  simpa using h'

theorem stepE (k o h : Int) (h1 : 1 ≤ h) (h3 : h ≤ 3) (o0 : 0 ≤ o) (o9 : o ≤ 9) :
    Note.up_by ⟨'E', mkSharpFlat k, o⟩ h 7 = .ok ⟨'F', mkSharpFlat (k + h - 1), o⟩ := by
  have h' := up_by_seven 'E' k o h (by decide) h1 h3 o0 (by simpa using o9)
  rw [show get_next_letter 'E' = 'F' from by decide] at h'
  simpa using h'

theorem stepF (k o h : Int) (h1 : 1 ≤ h) (h3 : h ≤ 3) (o0 : 0 ≤ o) (o9 : o ≤ 9) :
    Note.up_by ⟨'F', mkSharpFlat k, o⟩ h 7 = .ok ⟨'G', mkSharpFlat (k + h - 2), o⟩ := by
  have h' := up_by_seven 'F' k o h (by decide) h1 h3 o0 (by simpa using o9)
  rw [show get_next_letter 'F' = 'G' from by decide] at h'
  simpa using h'

theorem stepG (k o h : Int) (h1 : 1 ≤ h) (h3 : h ≤ 3) (o0 : 0 ≤ o) (o9 : o ≤ 9) :
    Note.up_by ⟨'G', mkSharpFlat k, o⟩ h 7 = .ok ⟨'A', mkSharpFlat (k + h - 2), o⟩ := by
  have h' := up_by_seven 'G' k o h (by decide) h1 h3 o0 (by simpa using o9)
  rw [show get_next_letter 'G' = 'A' from by decide] at h'
  simpa using h'

theorem up_by_keeps_letter (L : Char) (k o h len : Int)
    (hL1 : 65 ≤ L.toNat) (hL2 : L.toNat ≤ 71)
    (h1 : 1 ≤ h) (h3 : h ≤ 3) (o0 : 0 ≤ o) (o9 : o ≤ 9) (hlen : len ≠ 7) :
    Note.up_by ⟨L, mkSharpFlat k, o⟩ h len = .ok ⟨L, mkSharpFlat (k + h), o⟩ := by
  unfold Note.up_by
  rw [if_pos ⟨h1, h3⟩, get_sharp_flat_mkSharpFlat]
  rcases eq_or_ne len 5 with h5 | h5
  · subst h5
    norm_num
    exact ofStr_build _ _ _ hL1 hL2 o0 o9
  rcases eq_or_ne len 6 with h6 | h6
  · subst h6
    norm_num
    exact ofStr_build _ _ _ hL1 hL2 o0 o9
  rcases eq_or_ne len 8 with h8 | h8
  · subst h8
    norm_num
    exact ofStr_build _ _ _ hL1 hL2 o0 o9
  rcases eq_or_ne len 12 with h12 | h12
  · subst h12
    norm_num
    exact ofStr_build _ _ _ hL1 hL2 o0 o9
  dsimp only
  rw [if_neg h5, if_neg h6, if_neg hlen, if_neg h8, if_neg h12]
  exact ofStr_build _ _ _ hL1 hL2 o0 o9

/-- C2: for every valid Note whose octave is in 0..8 and every length-7
pattern of steps each in 1, 2, 3 summing to 12 half-steps, applying
up_by(step, 7) sequentially returns a Note with the same letter, the same
accidental string, and the octave exactly one greater. -/
theorem C2_up_by_round_trip (n : Note) (pat : List Int)
    (hv : n.Valid) (ho8 : n.octave ≤ 8)
    (hlen : pat.length = 7) (hsteps : ∀ s ∈ pat, s = 1 ∨ s = 2 ∨ s = 3)
    (hsum : pat.sum = 12) :
    runPattern n pat 7 = .ok ⟨n.letter, n.sharp_flat, n.octave + 1⟩ := by
  have hsteps' : ∀ s ∈ pat, 1 ≤ s ∧ s ≤ 3 := by
    intro s hs
    rcases hsteps s hs with rfl | rfl | rfl <;> norm_num
  clear hsteps
  obtain ⟨L, sf, o⟩ := n
  obtain ⟨hL, ⟨k, hk⟩, ho0, _⟩ := hv
  dsimp only at hL hk ho0 ho8 ⊢
  subst hk
  rcases pat with _ | ⟨s1, pat⟩
  · simp at hlen
  rcases pat with _ | ⟨s2, pat⟩
  · simp at hlen
  rcases pat with _ | ⟨s3, pat⟩
  · simp at hlen
  rcases pat with _ | ⟨s4, pat⟩
  · simp at hlen
  rcases pat with _ | ⟨s5, pat⟩
  · simp at hlen
  rcases pat with _ | ⟨s6, pat⟩
  · simp at hlen
  rcases pat with _ | ⟨s7, pat⟩
  · simp at hlen
  rcases pat with _ | ⟨s8, pat⟩
  swap
  · simp [List.length_cons] at hlen
  have hs1 := hsteps' s1 (by simp)
  have hs2 := hsteps' s2 (by simp)
  have hs3 := hsteps' s3 (by simp)
  have hs4 := hsteps' s4 (by simp)
  have hs5 := hsteps' s5 (by simp)
  have hs6 := hsteps' s6 (by simp)
  have hs7 := hsteps' s7 (by simp)
  have hsum7 : s1 + s2 + s3 + s4 + s5 + s6 + s7 = 12 := by
    simp [List.sum_cons] at hsum
    omega
  clear hsteps' hsum hlen
  have hL7 : L ∈ ['A', 'B', 'C', 'D', 'E', 'F', 'G'] := by simpa [LETTERS] using hL
  fin_cases hL7
  ·
    simp only [runPattern]
    rw [stepA (k) (o) s1 hs1.1 hs1.2 (by omega) (by omega)]
    simp only [exbind_ok]
    rw [stepB (k + s1 - 2) (o) s2 hs2.1 hs2.2 (by omega) (by omega)]
    simp only [exbind_ok]
    rw [stepC (k + s1 - 2 + s2 - 1) (o + 1) s3 hs3.1 hs3.2 (by omega) (by omega)]
    simp only [exbind_ok]
    rw [stepD (k + s1 - 2 + s2 - 1 + s3 - 2) (o + 1) s4 hs4.1 hs4.2 (by omega) (by omega)]
    simp only [exbind_ok]
    rw [stepE (k + s1 - 2 + s2 - 1 + s3 - 2 + s4 - 2) (o + 1) s5 hs5.1 hs5.2 (by omega) (by omega)]
    simp only [exbind_ok]
    rw [stepF (k + s1 - 2 + s2 - 1 + s3 - 2 + s4 - 2 + s5 - 1) (o + 1) s6 hs6.1 hs6.2 (by omega) (by omega)]
    simp only [exbind_ok]
    rw [stepG (k + s1 - 2 + s2 - 1 + s3 - 2 + s4 - 2 + s5 - 1 + s6 - 2) (o + 1) s7 hs7.1 hs7.2 (by omega) (by omega)]
    simp only [exbind_ok]
    have hacc : k + s1 - 2 + s2 - 1 + s3 - 2 + s4 - 2 + s5 - 1 + s6 - 2 + s7 - 2 = k := by omega
    rw [hacc]
  ·
    simp only [runPattern]
    rw [stepB (k) (o) s1 hs1.1 hs1.2 (by omega) (by omega)]
    simp only [exbind_ok]
    rw [stepC (k + s1 - 1) (o + 1) s2 hs2.1 hs2.2 (by omega) (by omega)]
    simp only [exbind_ok]
    rw [stepD (k + s1 - 1 + s2 - 2) (o + 1) s3 hs3.1 hs3.2 (by omega) (by omega)]
    simp only [exbind_ok]
    rw [stepE (k + s1 - 1 + s2 - 2 + s3 - 2) (o + 1) s4 hs4.1 hs4.2 (by omega) (by omega)]
    simp only [exbind_ok]
    rw [stepF (k + s1 - 1 + s2 - 2 + s3 - 2 + s4 - 1) (o + 1) s5 hs5.1 hs5.2 (by omega) (by omega)]
    simp only [exbind_ok]
    rw [stepG (k + s1 - 1 + s2 - 2 + s3 - 2 + s4 - 1 + s5 - 2) (o + 1) s6 hs6.1 hs6.2 (by omega) (by omega)]
    simp only [exbind_ok]
    rw [stepA (k + s1 - 1 + s2 - 2 + s3 - 2 + s4 - 1 + s5 - 2 + s6 - 2) (o + 1) s7 hs7.1 hs7.2 (by omega) (by omega)]
    simp only [exbind_ok]
    have hacc : k + s1 - 1 + s2 - 2 + s3 - 2 + s4 - 1 + s5 - 2 + s6 - 2 + s7 - 2 = k := by omega
    rw [hacc]
  ·
    simp only [runPattern]
    rw [stepC (k) (o) s1 hs1.1 hs1.2 (by omega) (by omega)]
    simp only [exbind_ok]
    rw [stepD (k + s1 - 2) (o) s2 hs2.1 hs2.2 (by omega) (by omega)]
    simp only [exbind_ok]
    rw [stepE (k + s1 - 2 + s2 - 2) (o) s3 hs3.1 hs3.2 (by omega) (by omega)]
    simp only [exbind_ok]
    rw [stepF (k + s1 - 2 + s2 - 2 + s3 - 1) (o) s4 hs4.1 hs4.2 (by omega) (by omega)]
    simp only [exbind_ok]
    rw [stepG (k + s1 - 2 + s2 - 2 + s3 - 1 + s4 - 2) (o) s5 hs5.1 hs5.2 (by omega) (by omega)]
    simp only [exbind_ok]
    rw [stepA (k + s1 - 2 + s2 - 2 + s3 - 1 + s4 - 2 + s5 - 2) (o) s6 hs6.1 hs6.2 (by omega) (by omega)]
    simp only [exbind_ok]
    rw [stepB (k + s1 - 2 + s2 - 2 + s3 - 1 + s4 - 2 + s5 - 2 + s6 - 2) (o) s7 hs7.1 hs7.2 (by omega) (by omega)]
    simp only [exbind_ok]
    have hacc : k + s1 - 2 + s2 - 2 + s3 - 1 + s4 - 2 + s5 - 2 + s6 - 2 + s7 - 1 = k := by omega
    rw [hacc]
  ·
    simp only [runPattern]
    rw [stepD (k) (o) s1 hs1.1 hs1.2 (by omega) (by omega)]
    simp only [exbind_ok]
    rw [stepE (k + s1 - 2) (o) s2 hs2.1 hs2.2 (by omega) (by omega)]
    simp only [exbind_ok]
    rw [stepF (k + s1 - 2 + s2 - 1) (o) s3 hs3.1 hs3.2 (by omega) (by omega)]
    simp only [exbind_ok]
    rw [stepG (k + s1 - 2 + s2 - 1 + s3 - 2) (o) s4 hs4.1 hs4.2 (by omega) (by omega)]
    simp only [exbind_ok]
    rw [stepA (k + s1 - 2 + s2 - 1 + s3 - 2 + s4 - 2) (o) s5 hs5.1 hs5.2 (by omega) (by omega)]
    simp only [exbind_ok]
    rw [stepB (k + s1 - 2 + s2 - 1 + s3 - 2 + s4 - 2 + s5 - 2) (o) s6 hs6.1 hs6.2 (by omega) (by omega)]
    simp only [exbind_ok]
    rw [stepC (k + s1 - 2 + s2 - 1 + s3 - 2 + s4 - 2 + s5 - 2 + s6 - 1) (o + 1) s7 hs7.1 hs7.2 (by omega) (by omega)]
    simp only [exbind_ok]
    have hacc : k + s1 - 2 + s2 - 1 + s3 - 2 + s4 - 2 + s5 - 2 + s6 - 1 + s7 - 2 = k := by omega
    rw [hacc]
  ·
    simp only [runPattern]
    rw [stepE (k) (o) s1 hs1.1 hs1.2 (by omega) (by omega)]
    simp only [exbind_ok]
    rw [stepF (k + s1 - 1) (o) s2 hs2.1 hs2.2 (by omega) (by omega)]
    simp only [exbind_ok]
    rw [stepG (k + s1 - 1 + s2 - 2) (o) s3 hs3.1 hs3.2 (by omega) (by omega)]
    simp only [exbind_ok]
    rw [stepA (k + s1 - 1 + s2 - 2 + s3 - 2) (o) s4 hs4.1 hs4.2 (by omega) (by omega)]
    simp only [exbind_ok]
    rw [stepB (k + s1 - 1 + s2 - 2 + s3 - 2 + s4 - 2) (o) s5 hs5.1 hs5.2 (by omega) (by omega)]
    simp only [exbind_ok]
    rw [stepC (k + s1 - 1 + s2 - 2 + s3 - 2 + s4 - 2 + s5 - 1) (o + 1) s6 hs6.1 hs6.2 (by omega) (by omega)]
    simp only [exbind_ok]
    rw [stepD (k + s1 - 1 + s2 - 2 + s3 - 2 + s4 - 2 + s5 - 1 + s6 - 2) (o + 1) s7 hs7.1 hs7.2 (by omega) (by omega)]
    simp only [exbind_ok]
    have hacc : k + s1 - 1 + s2 - 2 + s3 - 2 + s4 - 2 + s5 - 1 + s6 - 2 + s7 - 2 = k := by omega
    rw [hacc]
  ·
    simp only [runPattern]
    rw [stepF (k) (o) s1 hs1.1 hs1.2 (by omega) (by omega)]
    simp only [exbind_ok]
    rw [stepG (k + s1 - 2) (o) s2 hs2.1 hs2.2 (by omega) (by omega)]
    simp only [exbind_ok]
    rw [stepA (k + s1 - 2 + s2 - 2) (o) s3 hs3.1 hs3.2 (by omega) (by omega)]
    simp only [exbind_ok]
    rw [stepB (k + s1 - 2 + s2 - 2 + s3 - 2) (o) s4 hs4.1 hs4.2 (by omega) (by omega)]
    simp only [exbind_ok]
    rw [stepC (k + s1 - 2 + s2 - 2 + s3 - 2 + s4 - 1) (o + 1) s5 hs5.1 hs5.2 (by omega) (by omega)]
    simp only [exbind_ok]
    rw [stepD (k + s1 - 2 + s2 - 2 + s3 - 2 + s4 - 1 + s5 - 2) (o + 1) s6 hs6.1 hs6.2 (by omega) (by omega)]
    simp only [exbind_ok]
    rw [stepE (k + s1 - 2 + s2 - 2 + s3 - 2 + s4 - 1 + s5 - 2 + s6 - 2) (o + 1) s7 hs7.1 hs7.2 (by omega) (by omega)]
    simp only [exbind_ok]
    have hacc : k + s1 - 2 + s2 - 2 + s3 - 2 + s4 - 1 + s5 - 2 + s6 - 2 + s7 - 1 = k := by omega
    rw [hacc]
  ·
    simp only [runPattern]
    rw [stepG (k) (o) s1 hs1.1 hs1.2 (by omega) (by omega)]
    simp only [exbind_ok]
    rw [stepA (k + s1 - 2) (o) s2 hs2.1 hs2.2 (by omega) (by omega)]
    simp only [exbind_ok]
    rw [stepB (k + s1 - 2 + s2 - 2) (o) s3 hs3.1 hs3.2 (by omega) (by omega)]
    simp only [exbind_ok]
    rw [stepC (k + s1 - 2 + s2 - 2 + s3 - 1) (o + 1) s4 hs4.1 hs4.2 (by omega) (by omega)]
    simp only [exbind_ok]
    rw [stepD (k + s1 - 2 + s2 - 2 + s3 - 1 + s4 - 2) (o + 1) s5 hs5.1 hs5.2 (by omega) (by omega)]
    simp only [exbind_ok]
    rw [stepE (k + s1 - 2 + s2 - 2 + s3 - 1 + s4 - 2 + s5 - 2) (o + 1) s6 hs6.1 hs6.2 (by omega) (by omega)]
    simp only [exbind_ok]
    rw [stepF (k + s1 - 2 + s2 - 2 + s3 - 1 + s4 - 2 + s5 - 2 + s6 - 1) (o + 1) s7 hs7.1 hs7.2 (by omega) (by omega)]
    simp only [exbind_ok]
    have hacc : k + s1 - 2 + s2 - 2 + s3 - 1 + s4 - 2 + s5 - 2 + s6 - 1 + s7 - 2 = k := by omega
    rw [hacc]

theorem exbind_err {α β : Type} (e : String) (f : α → Except String β) :
    (Except.error e : Except String α).bind f = .error e := rfl

theorem letter_ne_octave_err : errInvalidNoteLetter ≠ errInvalidOctave := by decide

/-- C1: on the diatonic path (scale length 7) up_by advances the letter to
the next letter of the musical alphabet (cyclic, G wrapping to A), sets the
accidental count to the old count plus the half-steps minus the natural
gap (1 from B or E, 2 otherwise), and raises the octave exactly when the
letter was B.  Amended with the hypothesis that a B note sits in octave at
most 8: from B9 the rebuilt octave 10 is truncated by the string re-parse. -/
theorem C1_up_by_diatonic_step (n : Note) (h : Int) (hv : n.Valid)
    (hh : h = 1 ∨ h = 2 ∨ h = 3) (hB : n.letter = 'B' → n.octave ≤ 8) :
    ∃ m : Note, n.up_by h 7 = .ok m ∧
      m.letter = nextInAlphabet n.letter ∧
      m.get_sharp_flat = n.get_sharp_flat + h -
        (if n.letter = 'B' ∨ n.letter = 'E' then (1 : Int) else 2) ∧
      m.octave = n.octave + (if n.letter = 'B' then (1 : Int) else 0) := by
  have h1 : 1 ≤ h := by rcases hh with rfl | rfl | rfl <;> norm_num
  have h3 : h ≤ 3 := by rcases hh with rfl | rfl | rfl <;> norm_num
  obtain ⟨L, sf, o⟩ := n
  obtain ⟨hL, ⟨k, hk⟩, ho0, ho9⟩ := hv
  dsimp only at hL hk ho0 ho9 hB ⊢
  subst hk
  have hb : o + (if L = 'B' then (1 : Int) else 0) ≤ 9 := by
    by_cases hLB : L = 'B'
    · have := hB hLB
      simp [hLB]
      omega
    · simp [hLB]
      omega
  refine ⟨_, up_by_seven L k o h hL h1 h3 ho0 hb, ?_, ?_, rfl⟩
  · have hL' : L ∈ ['A', 'B', 'C', 'D', 'E', 'F', 'G'] := by simpa [LETTERS] using hL
    fin_cases hL' <;> rfl
  · rw [get_sharp_flat_mkSharpFlat, get_sharp_flat_mkSharpFlat]

/-- C1 counterexample: B9 is a constructible Note, but up_by(1, 7) from it
returns octave 0, not the octave 9 + 1 = 10 that the claim requires for
every octave: the rebuilt string "C10" has its octave read from the last
character only. -/
theorem C1_octave_truncation_counterexample :
    Note.ofStr ['B', '9'] = .ok ⟨'B', [], 9⟩ ∧
    Note.up_by ⟨'B', [], 9⟩ 1 7 = .ok ⟨'C', [], 0⟩ ∧
    (0 : Int) ≠ 9 + 1 := by
  refine ⟨rfl, rfl, by decide⟩

theorem C1_up_by_diatonic_step_witness :
    ∃ m : Note, Note.up_by ⟨'C', [], 4⟩ 2 7 = .ok m ∧
      m.letter = nextInAlphabet 'C' ∧
      m.get_sharp_flat = Note.get_sharp_flat ⟨'C', [], 4⟩ + 2 -
        (if ('C' : Char) = 'B' ∨ ('C' : Char) = 'E' then (1 : Int) else 2) ∧
      m.octave = (4 : Int) + (if ('C' : Char) = 'B' then (1 : Int) else 0) :=
  C1_up_by_diatonic_step ⟨'C', [], 4⟩ 2
    ⟨by decide, ⟨0, rfl⟩, by norm_num, by norm_num⟩
    (by norm_num) (by decide)

theorem C2_up_by_round_trip_witness :
    runPattern ⟨'C', [], 4⟩ [2, 2, 1, 2, 2, 2, 1] 7 = .ok ⟨'C', [], 5⟩ := by
  have h := C2_up_by_round_trip ⟨'C', [], 4⟩ [2, 2, 1, 2, 2, 2, 1]
    ⟨by decide, ⟨0, rfl⟩, by norm_num, by norm_num⟩ (by norm_num)
    (by decide) (by decide) (by decide)
  simpa using h

/-- C8: for every valid Note, half-steps in 1, 2, 3 and scale length 5, 6,
8 or 12, up_by keeps the letter and the octave and only advances the
accidental count by the half-steps. -/
theorem C8_up_by_fixed_letter (n : Note) (h len : Int) (hv : n.Valid)
    (hh : h = 1 ∨ h = 2 ∨ h = 3) (hlen : len ∈ ([5, 6, 8, 12] : List Int)) :
    ∃ m : Note, n.up_by h len = .ok m ∧ m.letter = n.letter ∧
      m.octave = n.octave ∧ m.get_sharp_flat = n.get_sharp_flat + h := by
  have h1 : 1 ≤ h := by rcases hh with rfl | rfl | rfl <;> norm_num
  have h3 : h ≤ 3 := by rcases hh with rfl | rfl | rfl <;> norm_num
  obtain ⟨L, sf, o⟩ := n
  obtain ⟨hL, ⟨k, hk⟩, ho0, ho9⟩ := hv
  dsimp only at hL hk ho0 ho9 ⊢
  subst hk
  have hb : 65 ≤ L.toNat ∧ L.toNat ≤ 71 := by
    have hL' : L ∈ ['A', 'B', 'C', 'D', 'E', 'F', 'G'] := by simpa [LETTERS] using hL
    fin_cases hL' <;> exact ⟨by decide, by decide⟩
  have hne : len ≠ 7 := by
    simp at hlen
    omega
  refine ⟨_, up_by_keeps_letter L k o h len hb.1 hb.2 h1 h3 ho0 ho9 hne, rfl, rfl, ?_⟩
  rw [get_sharp_flat_mkSharpFlat, get_sharp_flat_mkSharpFlat]

theorem C8_up_by_fixed_letter_witness :
    ∃ m : Note, Note.up_by ⟨'A', ['b', 'b'], 5⟩ 3 12 = .ok m ∧
      m.letter = 'A' ∧ m.octave = (5 : Int) ∧
      m.get_sharp_flat = Note.get_sharp_flat ⟨'A', ['b', 'b'], 5⟩ + 3 :=
  C8_up_by_fixed_letter ⟨'A', ['b', 'b'], 5⟩ 3 12
    ⟨by decide, ⟨-2, by decide⟩, by norm_num, by norm_num⟩
    (by norm_num) (by decide)

/-- C4: the pattern verifier decodes each guessed character by H to 1,
W to 2, 3 to 3, anything else to 0, and succeeds exactly on element-wise
and length-wise equality with the scale's pattern; it is reflexive on the
characters that produced the pattern and fails on any differing decoding. -/
theorem C4_verify_contract :
    (int_from_pattern 'H' = 1 ∧ int_from_pattern 'W' = 2 ∧ int_from_pattern '3' = 3) ∧
    (∀ c : Char, c ≠ 'H' → c ≠ 'W' → c ≠ '3' → int_from_pattern c = 0) ∧
    (∀ (p : List Int) (g : PyStr), verify p g = true ↔ p = g.map int_from_pattern) ∧
    (∀ g : PyStr, verify (g.map int_from_pattern) g = true) ∧
    (∀ (p : List Int) (g : PyStr), g.map int_from_pattern ≠ p → verify p g = false) := by
  refine ⟨⟨rfl, rfl, rfl⟩, ?_, ?_, ?_, ?_⟩
  · intro c h1 h2 h3
    simp [int_from_pattern, h1, h2, h3]
  · intro p g
    simp [verify]
  · intro g
    simp [verify]
  · intro p g hne
    simp only [verify, beq_eq_false_iff_ne, ne_eq]
    exact fun h => hne h.symm

theorem C4_verify_contract_witness :
    int_from_pattern 'z' = 0 ∧
    verify (['W', 'H'].map int_from_pattern) ['W', 'H'] = true ∧
    verify [2, 2, 1, 2, 2, 2, 1] ['W', 'H'] = false :=
  ⟨C4_verify_contract.2.1 'z' (by decide) (by decide) (by decide),
   C4_verify_contract.2.2.2.1 ['W', 'H'],
   C4_verify_contract.2.2.2.2 [2, 2, 1, 2, 2, 2, 1] ['W', 'H'] (by decide)⟩

/-- C6: within one clef, font_offset_number is strictly increasing along
the letter-octave pitch ordering (octaves adjusted so that letters below C
belong with the preceding C octave, then letters compared A..G). -/
theorem C6_font_offset_monotone (c : Clef) (a b : Note)
    (ha : a.letter ∈ LETTERS) (hb : b.letter ∈ LETTERS)
    (hab : pitchPrecedes a b) :
    a.font_offset_number c < b.font_offset_number c := by
  obtain ⟨la, sfa, oa⟩ := a
  obtain ⟨lb, sfb, ob⟩ := b
  dsimp only at ha hb
  have ha' : 65 ≤ la.toNat ∧ la.toNat ≤ 71 := by
    have h : la ∈ ['A', 'B', 'C', 'D', 'E', 'F', 'G'] := by simpa [LETTERS] using ha
    fin_cases h <;> exact ⟨by decide, by decide⟩
  have hb' : 65 ≤ lb.toNat ∧ lb.toNat ≤ 71 := by
    have h : lb ∈ ['A', 'B', 'C', 'D', 'E', 'F', 'G'] := by simpa [LETTERS] using hb
    fin_cases h <;> exact ⟨by decide, by decide⟩
  have h7 : (LETTERS_PER_OCTAVE : Int) = 7 := by decide
  unfold pitchPrecedes pitchKey at hab
  unfold Note.font_offset_number
  dsimp only at hab ⊢
  rw [h7]
  obtain ⟨ha1, ha2⟩ := ha'
  obtain ⟨hb1, hb2⟩ := hb'
  split_ifs at hab ⊢ <;> omega

theorem C6_font_offset_monotone_witness :
    pitchPrecedes ⟨'C', [], 4⟩ ⟨'A', [], 4⟩ ∧
    Note.font_offset_number ⟨'C', [], 4⟩ trebleClef <
      Note.font_offset_number ⟨'A', [], 4⟩ trebleClef :=
  ⟨Or.inl (by decide), C6_font_offset_monotone trebleClef ⟨'C', [], 4⟩ ⟨'A', [], 4⟩
    (by decide) (by decide) (Or.inl (by decide))⟩

theorem exmap_ok {α β : Type} (a : α) (f : α → β) :
    (Except.ok a : Except String α).map f = .ok (f a) := rfl

theorem pychr_glyph (base fon : Int) (hb0 : 0 ≤ base) (hb : base ≤ 60000)
    (h0 : 0 ≤ fon) (h17 : fon ≤ 17) : pychr (base + fon) = .ok (base + fon) := by
  unfold pychr
  rw [if_pos ⟨by omega, by omega⟩]

/-- C7: parsing raises InvalidNoteLetterError exactly when the first
character is not A..G; otherwise raises InvalidOctaveError exactly when the
last character is not a decimal digit; otherwise it accepts, reading the
accidental count from the '#'/'b' characters strictly between them.
Amended: acceptance is not limited to the compact form, because other
middle characters are skipped rather than rejected. -/
theorem C7_parse_errors (c : Char) (rest : PyStr) :
    (Note.ofStr (c :: rest) = .error errInvalidNoteLetter ↔
      ¬(65 ≤ c.toNat ∧ c.toNat ≤ 71)) ∧
    (Note.ofStr (c :: rest) = .error errInvalidOctave ↔
      ((65 ≤ c.toNat ∧ c.toNat ≤ 71) ∧
        ¬(48 ≤ ((c :: rest).getLastD c).toNat ∧ ((c :: rest).getLastD c).toNat ≤ 57))) ∧
    ((65 ≤ c.toNat ∧ c.toNat ≤ 71) →
      (48 ≤ ((c :: rest).getLastD c).toNat ∧ ((c :: rest).getLastD c).toNat ≤ 57) →
      Note.ofStr (c :: rest) =
        .ok ⟨c, mkSharpFlat (sfCount rest.dropLast),
             (((c :: rest).getLastD c).toNat : Int) - 48⟩) := by
  by_cases h1 : 65 ≤ c.toNat ∧ c.toNat ≤ 71
  · by_cases h2 : 48 ≤ ((c :: rest).getLastD c).toNat ∧ ((c :: rest).getLastD c).toNat ≤ 57
    · rw [ofStr_cons, if_pos h1, if_pos h2]
      refine ⟨iff_of_false (fun hx => Except.noConfusion hx) (not_not_intro h1),
        iff_of_false (fun hx => Except.noConfusion hx) (fun hq => hq.2 h2),
        fun _ _ => rfl⟩
    · rw [ofStr_cons, if_pos h1, if_neg h2]
      refine ⟨?_, iff_of_true rfl ⟨h1, h2⟩, fun _ hq => absurd hq h2⟩
      simp only [Except.error.injEq]
      constructor
      · intro hx
        exact absurd hx.symm letter_ne_octave_err
      · intro hn1
        exact absurd h1 hn1
  · rw [ofStr_cons, if_neg h1]
    refine ⟨iff_of_true rfl h1, ?_, fun hq _ => absurd hq h1⟩
    simp only [Except.error.injEq]
    constructor
    · intro hx
      exact absurd hx letter_ne_octave_err
    · rintro ⟨hq, _⟩
      exact absurd hq h1

/-- C7 counterexample: the non-compact string "Cz4" is silently coerced
into the Note C4 instead of being rejected; and "z" raises the letter
error, not the octave error, though its last character is not a digit. -/
theorem C7_silent_coercion_counterexample :
    isCompactNoteForm ['C', 'z', '4'] = false ∧
    Note.ofStr ['C', 'z', '4'] = .ok ⟨'C', [], 4⟩ ∧
    Note.ofStr ['z'] = .error errInvalidNoteLetter ∧
    ('z'.isDigit = false) := by
  refine ⟨rfl, rfl, rfl, rfl⟩

theorem C7_parse_errors_witness :
    Note.ofStr ['Q', '4'] = .error errInvalidNoteLetter ∧
    Note.ofStr ['C', 'x'] = .error errInvalidOctave ∧
    Note.ofStr ['C', '#', '4'] = .ok ⟨'C', ['#'], 4⟩ := by
  refine ⟨((C7_parse_errors 'Q' ['4']).1).mpr (by decide),
    ((C7_parse_errors 'C' ['x']).2.1).mpr (by decide), ?_⟩
  have h := (C7_parse_errors 'C' ['#', '4']).2.2 (by decide) (by decide)
  exact h

/-- C3: when the chosen scale type's possible starting notes have empty
intersection with the chosen clef's playable notes, the constrained
generator fails and produces no Scale.  Amended: the failure is the
IndexError raised by choice on an empty sequence — the source defines no
NoValidStartError. -/
theorem C3_empty_intersection_raises (world : World) (st : ScaleInfo)
    (clefName : String) (clefObj : Clef) (p1 p2 p3 : Nat)
    (hclef : CLEFS.lookup clefName = some clefObj)
    (hempty : st.possible_starts.filter
      (fun s => (clefObj.all_notes world).contains s) = []) :
    scaleInit world (some st) none (some clefName) p1 p2 p3 =
      .error errEmptyChoice := by
  unfold scaleInit
  dsimp only
  simp only [exbind_ok]
  unfold dictGet
  rw [hclef]
  dsimp only
  simp only [exbind_ok]
  rw [hempty]
  rfl

/-- C3 counterexample: at a concrete configuration with empty intersection
(a scale type starting only on C, the Bass clef, no ledger positions
allowed), generation fails with choice's IndexError, whose message is not
a NoValidStartError — no error of that name exists in the code. -/
theorem C3_error_identity_counterexample :
    scaleInit ⟨⟨["Major"], ["Bass"], 4, 4, 0, 0⟩⟩
        (some ⟨"Major", "WWHWWWH".toList, [['C']]⟩) none (some bassClef.name) 0 0 0 =
      .error errEmptyChoice ∧
    errEmptyChoice ≠ "NoValidStartError" := by
  refine ⟨rfl, by decide⟩

theorem C3_empty_intersection_raises_witness :
    scaleInit ⟨⟨["Major"], ["Bass"], 4, 4, 0, 0⟩⟩
        (some ⟨"OnlyC", "WWHWWWH".toList, [['C']]⟩) none (some bassClef.name) 1 2 3 =
      .error errEmptyChoice :=
  C3_empty_intersection_raises ⟨⟨["Major"], ["Bass"], 4, 4, 0, 0⟩⟩
    ⟨"OnlyC", "WWHWWWH".toList, [['C']]⟩ bassClef.name bassClef 1 2 3 rfl rfl

/-- C5: for every clef of the catalog, the playable-note derivation equals
the 10-position letter walk (3 spellings per position, 30 entries in all)
windowed by dropping the first 3 x (4 - maxLowLedgerPositions) entries and
the last 3 x (4 - maxHighLedgerPositions) entries; with both limits 0 the
result avoids the ledger-line regions entirely. -/
theorem C5_all_notes_windowing :
    (∀ c ∈ clefList,
      c.all_notes ⟨⟨[], [], 0, 0, 4, 4⟩⟩ = specWalk c ∧ (specWalk c).length = 30) ∧
    (∀ c ∈ clefList, ∀ low < 5, ∀ high < 5,
      (c.all_notes ⟨⟨[], [], 0, 0, high, low⟩⟩).length =
        30 - 3 * (4 - low) - 3 * (4 - high) ∧
      c.all_notes ⟨⟨[], [], 0, 0, high, low⟩⟩ =
        ((specWalk c).take (30 - 3 * (4 - high))).drop (3 * (4 - low))) ∧
    (∀ c ∈ clefList, ∀ s ∈ c.all_notes ⟨⟨[], [], 0, 0, 0, 0⟩⟩, s ∉ ledgerRegion c) := by
  refine ⟨by decide, by decide, by decide⟩

theorem cmpInt_ne_zero (s : Int) (h : s ≠ 0) : cmpInt s 0 ≠ 0 := by
  unfold cmpInt
  split_ifs <;> omega

/-- C9: a Note with no accidentals whose letter is covered by a key
signature with a nonzero sharps/flats count always mismatches it
(note ^ keySignature is True), so its staff string form is the natural
glyph followed by the note-head glyph, both at the note's staff offset. -/
theorem C9_natural_mismatch (n : Note) (ks : KeySignature) (c : Clef)
    (hsf : n.sharp_flat = []) (hcov : ks.containsNote n = true)
    (hnz : ks.sharps_flats ≠ 0)
    (hf0 : 0 ≤ n.font_offset_number c) (hf17 : n.font_offset_number c ≤ 17) :
    ks.rxorTest n = .ok true ∧
    n.string_form (some c) ks false =
      .ok [NATURALS_START + n.font_offset_number c,
           NOTES_START + n.font_offset_number c] := by
  have hci := cmpInt_ne_zero ks.sharps_flats hnz
  have hx : ks.rxorTest n = .ok true := by
    unfold KeySignature.rxorTest
    rw [hcov]
    rw [if_neg (by decide : ¬ (true = false))]
    rw [hsf]
    rw [show cmpStr (([] : PyStr) ++ ['A']) (['A']) = 0 from by decide]
    simp only [neg_zero, Except.ok.injEq, decide_eq_true_eq]
    omega
  refine ⟨hx, ?_⟩
  unfold Note.string_form
  rw [hcov]
  rw [if_pos rfl]
  rw [hx]
  simp only [exbind_ok]
  simp only [if_true]
  unfold Note.accidentals_symbols
  rw [hsf]
  rw [if_neg (by decide : ¬ (true = false))]
  rw [pychr_glyph NATURALS_START (n.font_offset_number c) (by decide) (by decide) hf0 hf17]
  simp only [exmap_ok, exbind_ok]
  rw [pychr_glyph NOTES_START (n.font_offset_number c) (by decide) (by decide) hf0 hf17]
  rfl

theorem C9_natural_mismatch_witness :
    KeySignature.rxorTest ⟨2⟩ ⟨'F', [], 4⟩ = .ok true ∧
    Note.string_form ⟨'F', [], 4⟩ (some trebleClef) ⟨2⟩ false =
      .ok [NATURALS_START + Note.font_offset_number ⟨'F', [], 4⟩ trebleClef,
           NOTES_START + Note.font_offset_number ⟨'F', [], 4⟩ trebleClef] :=
  C9_natural_mismatch ⟨'F', [], 4⟩ ⟨2⟩ trebleClef rfl (by decide) (by decide)
    (by decide) (by decide)

/-- C10: no note is covered by the default (zero) key signature, so the
staff string form always takes the uncovered branch: naturals are
suppressed (bare note-head glyph) while sharp or flat runs are still
emitted before the note-head glyph. -/
theorem C10_empty_key_signature (n : Note) (c : Clef)
    (hf0 : 0 ≤ n.font_offset_number c) (hf17 : n.font_offset_number c ≤ 17) :
    KeySignature.containsNote ⟨0⟩ n = false ∧
    (n.sharp_flat = [] →
      n.string_form (some c) ⟨0⟩ false = .ok [NOTES_START + n.font_offset_number c]) ∧
    (∀ k : Int, n.sharp_flat = mkSharpFlat k → k ≠ 0 →
      n.string_form (some c) ⟨0⟩ false =
        .ok (List.replicate k.natAbs
            ((if 0 < k then SHARPS_START else FLATS_START) + n.font_offset_number c) ++
          [NOTES_START + n.font_offset_number c])) := by
  have hcon : KeySignature.containsNote ⟨0⟩ n = false := rfl
  refine ⟨hcon, ?_, ?_⟩
  · intro hsf
    unfold Note.string_form
    rw [hcon]
    dsimp only
    rw [if_neg (by decide : ¬ (false = true))]
    unfold Note.accidentals_symbols
    rw [hsf]
    rw [if_pos rfl]
    simp only [exbind_ok]
    rw [pychr_glyph NOTES_START (n.font_offset_number c) (by decide) (by decide) hf0 hf17]
    rfl
  · intro k hk hknz
    unfold Note.string_form
    rw [hcon]
    dsimp only
    rw [if_neg (by decide : ¬ (false = true))]
    unfold Note.accidentals_symbols
    rw [hk]
    rcases lt_trichotomy k 0 with hneg | h0 | hpos
    · obtain ⟨m, hm⟩ : ∃ m : Nat, (-k).toNat = m + 1 := ⟨(-k).toNat - 1, by omega⟩
      have hrep : mkSharpFlat k = FLAT :: List.replicate m FLAT := by
        unfold mkSharpFlat
        rw [show k.toNat = 0 from by omega, hm, List.replicate_zero, List.nil_append,
          List.replicate_succ]
      rw [hrep]
      dsimp only
      rw [show ACCIDENTALS_START FLAT = .ok FLATS_START from rfl]
      simp only [exbind_ok]
      rw [pychr_glyph FLATS_START (n.font_offset_number c) (by decide) (by decide) hf0 hf17]
      simp only [exmap_ok, exbind_ok]
      rw [pychr_glyph NOTES_START (n.font_offset_number c) (by decide) (by decide) hf0 hf17]
      rw [show (if 0 < k then SHARPS_START else FLATS_START) = FLATS_START from
        by rw [if_neg (by omega)]]
      rw [show k.natAbs = m + 1 from by omega]
      simp [List.map_replicate, List.replicate_succ]
      rfl
    · exact absurd h0 hknz
    · obtain ⟨m, hm⟩ : ∃ m : Nat, k.toNat = m + 1 := ⟨k.toNat - 1, by omega⟩
      have hrep : mkSharpFlat k = SHARP :: List.replicate m SHARP := by
        unfold mkSharpFlat
        rw [show (-k).toNat = 0 from by omega, hm, List.replicate_zero, List.append_nil,
          List.replicate_succ]
      rw [hrep]
      dsimp only
      rw [show ACCIDENTALS_START SHARP = .ok SHARPS_START from rfl]
      simp only [exbind_ok]
      rw [pychr_glyph SHARPS_START (n.font_offset_number c) (by decide) (by decide) hf0 hf17]
      simp only [exmap_ok, exbind_ok]
      rw [pychr_glyph NOTES_START (n.font_offset_number c) (by decide) (by decide) hf0 hf17]
      rw [show (if 0 < k then SHARPS_START else FLATS_START) = SHARPS_START from
        by rw [if_pos (by omega)]]
      rw [show k.natAbs = m + 1 from by omega]
      simp [List.map_replicate, List.replicate_succ]
      rfl

theorem C10_empty_key_signature_witness :
    KeySignature.containsNote ⟨0⟩ ⟨'F', [], 4⟩ = false ∧
    Note.string_form ⟨'F', [], 4⟩ (some trebleClef) ⟨0⟩ false =
      .ok [NOTES_START + Note.font_offset_number ⟨'F', [], 4⟩ trebleClef] ∧
    Note.string_form ⟨'F', ['#'], 4⟩ (some trebleClef) ⟨0⟩ false =
      .ok (List.replicate (1 : Int).natAbs
          ((if (0 : Int) < 1 then SHARPS_START else FLATS_START) +
            Note.font_offset_number ⟨'F', ['#'], 4⟩ trebleClef) ++
        [NOTES_START + Note.font_offset_number ⟨'F', ['#'], 4⟩ trebleClef]) := by
  obtain ⟨h1, h2, -⟩ := C10_empty_key_signature ⟨'F', [], 4⟩ trebleClef (by decide) (by decide)
  obtain ⟨-, -, h3⟩ := C10_empty_key_signature ⟨'F', ['#'], 4⟩ trebleClef (by decide) (by decide)
  exact ⟨h1, h2 rfl, h3 1 (by decide) (by decide)⟩

theorem C5_all_notes_windowing_witness :
    bassClef.all_notes ⟨⟨[], [], 0, 0, 4, 4⟩⟩ = specWalk bassClef ∧
    (bassClef.all_notes ⟨⟨[], [], 0, 0, 0, 0⟩⟩).length =
      30 - 3 * (4 - 0) - 3 * (4 - 0) ∧
    ['G', 'b', '2'] ∉ ledgerRegion bassClef :=
  ⟨(C5_all_notes_windowing.1 bassClef (by decide)).1,
   (C5_all_notes_windowing.2.1 bassClef (by decide) 0 (by decide) 0 (by decide)).1,
   C5_all_notes_windowing.2.2 bassClef (by decide) ['G', 'b', '2'] (by decide)⟩
